import Mathlib

/-!
Shallow embedding of `update_guide_ppt.py`, a batch converter that turns
PowerPoint files in `guide_source/` into PDFs in `public/guides/` by driving
PowerPoint through COM and then writes a JSON manifest `list.json`.

Modelling conventions:
* File paths are modelled by their file names relative to the two fixed
  directories; a joined path is a pair `(directory, fileName)`.
* Modification times are natural numbers.
* The COM interface is an oracle (`ComOracle`): each external call either
  returns normally (`none`) or raises an exception carrying `str(e)`
  (`some msg`).  Exceptions in the embedding are the `.error` constructor of
  `Except String _`; a Python `try/except Exception` that returns a value is
  a total function into `Except`, and a bare `except: pass` is `tryPass`.
* `os.listdir` order is the `listing` field of the environment; successful
  `SaveAs` stamps the fresh PDF with the oracle-chosen mtime `convMtime`.
-/

namespace UpdateGuidePpt

/-- `source_dir` from the script: `<cwd>/guide_source`. -/
def source_dir : String := "guide_source"

/-- `target_dir` from the script: `<cwd>/public/guides`. -/
def target_dir : String := "public/guides"

/-- Whether the first list is a prefix of the second (over characters). -/
def listPrefixOf : List Char → List Char → Bool
  | [], _ => true
  | _ :: _, [] => false
  | a :: as, b :: bs => a == b && listPrefixOf as bs

/-- Python's `str.lower()` (ASCII range, which covers the extensions the
script compares against). -/
def strLower (s : String) : String := String.mk (s.data.map Char.toLower)

/-- Python's `str.endswith(suffix)`. -/
def strEndsWith (s suffix : String) : Bool :=
  listPrefixOf suffix.data.reverse s.data.reverse

/-- The candidate filter `f.lower().endswith(('.pptx', '.ppt'))` (line 75). -/
def isPptName (f : String) : Bool :=
  strEndsWith (strLower f) ".pptx" || strEndsWith (strLower f) ".ppt"

/-- Base of `os.path.splitext(filename)` (line 87) for a bare file name
(no directory separators): split at the last dot, except when every
character before that dot is itself a dot (a leading-dots name such as
`.pptx` has no extension in Python's semantics). -/
def splitextBase (s : String) : String :=
  let cs := s.data
  match cs.reverse.findIdx? (fun c => c = '.') with
  | none => s
  | some j =>
    let i := cs.length - 1 - j
    if (cs.take i).all (fun c => c = '.') then s else String.mk (cs.take i)

/-- The derived PDF file name `f"{name_without_ext}.pdf"` (line 88). -/
def pdfNameOf (f : String) : String := splitextBase f ++ ".pdf"

/-- Whether the first list occurs as a contiguous infix of the second. -/
def listInfixOf (n : List Char) : List Char → Bool
  | [] => n.isEmpty
  | c :: cs => listPrefixOf n (c :: cs) || listInfixOf n cs

/-- Python's `needle in haystack` substring test. -/
def strIn (needle hay : String) : Bool := listInfixOf needle.data hay.data

/-- The external COM calls made by one conversion attempt. -/
inductive ComEvent
  | callCreate
  | callOpen
  | callSave
  | callClose
  | callQuit
deriving DecidableEq, Repr

/-- Behaviour of the COM layer for one conversion attempt: each field is
`none` when the corresponding call returns normally, `some msg` when it
raises an exception whose `str(e)` is `msg`. -/
structure ComOracle where
  createErr : Option String
  openErr : Option String
  saveErr : Option String
  closeErr : Option String
  quitErr : Option String

/-- A bare `try: ... except: pass` around a call: whatever the call raises,
nothing propagates. -/
def tryPass (_e : Option String) : Option String := none

/-- The messages printed by the `except Exception` handler (lines 37-43):
the not-installed branch is selected by substring tests on `str(e)`. -/
def handlerLogs (name msg : String) : List String :=
  if strIn "Invalid class string" msg || strIn "-2147221005" msg then
    ["  -> Error: Microsoft PowerPoint is not installed or not registered.",
     "     (This script requires PowerPoint to be installed on the machine running it)"]
  else
    ["Error during conversion of " ++ name ++ ": " ++ msg]

/-- Events of the `finally` block (lines 46-56): `Close` when a presentation
handle was opened, then `Quit` when an application instance was created. -/
def finalizeEvents (hasPres hasApp : Bool) : List ComEvent :=
  (if hasPres then [ComEvent.callClose] else []) ++
  (if hasApp then [ComEvent.callQuit] else [])

/-- Exception escaping the `finally` block: each of `Close` and `Quit` is
wrapped in `try: ... except: pass`, so this is what would propagate. -/
def finalizeErr (o : ComOracle) (hasPres hasApp : Bool) : Option String :=
  match (if hasPres then tryPass o.closeErr else none) with
  | some e => some e
  | none => if hasApp then tryPass o.quitErr else none

/-- A `finally` block that raises replaces the in-flight result of the
`try`/`except`; otherwise the in-flight result stands. -/
def applyFinally (fin : Option String) (r : Except String Bool) : Except String Bool :=
  match fin with
  | some e => Except.error e
  | none => r

/-- Result of one call to `convert_ppt_to_pdf`. -/
structure ConvOutput where
  /-- `Except.ok b`: the call returned `b`; `Except.error e`: an exception
  escaped the call. -/
  result : Except String Bool
  /-- The COM calls performed, in order. -/
  events : List ComEvent
  /-- The lines printed during the call. -/
  logs : List String
  /-- Whether `SaveAs` produced the output file. -/
  wroteTarget : Bool
  /-- The exception caught by the `except Exception` handler, if any. -/
  caught : Option String

/-- `convert_ppt_to_pdf` (lines 6-56). `inputExists` is
`os.path.exists(input_path)`; `inputName` / `outputName` are the base names
of the input and output paths. -/
def convert_ppt_to_pdf (o : ComOracle) (inputExists : Bool)
    (inputName outputName : String) : ConvOutput :=
  if !inputExists then
    { result := Except.ok false
      events := []
      logs := ["Error: Input file not found at " ++ inputName]
      wroteTarget := false
      caught := none }
  else
    let l0 := ["Converting " ++ inputName ++ "..."]
    match o.createErr with
    | some e =>
      { result := applyFinally (finalizeErr o false false) (Except.ok false)
        events := [ComEvent.callCreate] ++ finalizeEvents false false
        logs := l0 ++ handlerLogs inputName e
        wroteTarget := false
        caught := some e }
    | none =>
      match o.openErr with
      | some e =>
        { result := applyFinally (finalizeErr o false true) (Except.ok false)
          events := [ComEvent.callCreate, ComEvent.callOpen] ++ finalizeEvents false true
          logs := l0 ++ handlerLogs inputName e
          wroteTarget := false
          caught := some e }
      | none =>
        match o.saveErr with
        | some e =>
          { result := applyFinally (finalizeErr o true true) (Except.ok false)
            events := [ComEvent.callCreate, ComEvent.callOpen, ComEvent.callSave]
              ++ finalizeEvents true true
            logs := l0 ++ handlerLogs inputName e
            wroteTarget := false
            caught := some e }
        | none =>
          { result := applyFinally (finalizeErr o true true) (Except.ok true)
            events := [ComEvent.callCreate, ComEvent.callOpen, ComEvent.callSave]
              ++ finalizeEvents true true
            logs := l0 ++ ["  -> Success: " ++ outputName]
            wroteTarget := true
            caught := none }

/-- One guide entry of `list.json`: `{"title": ..., "filename": ...}`
(lines 108-111). -/
structure Entry where
  title : String
  filename : String
deriving DecidableEq, Repr

/-- Record of what one iteration of the `for filename in ppt_files` loop
(lines 86-111) did. -/
structure FileRec where
  /-- The candidate file name. -/
  name : String
  /-- `name_without_ext` (line 87). -/
  title : String
  /-- `pdf_filename` (line 88). -/
  pdfName : String
  /-- The joined source path `(source_dir, name)` (line 90). -/
  sourceFile : String × String
  /-- The joined target path `(target_dir, pdfName)` (line 91). -/
  targetFile : String × String
  /-- State of the target path when this file was processed: `some mtime`
  when it existed (line 95-97), `none` otherwise. -/
  tgtAt : Option Nat
  /-- The `should_convert` flag after the staleness check (lines 94-100). -/
  shouldConvert : Bool
  /-- The conversion attempt's outcome, `none` when skipped (lines 103-105). -/
  conv : Option ConvOutput
  /-- The `success` variable (`Except.ok b`), or the exception that would
  escape the loop iteration. -/
  result : Except String Bool

/-- Whether the loop appended a guide entry for this file: the `success`
variable was `True` (line 107). -/
def recOk (r : FileRec) : Bool :=
  match r.result with
  | Except.ok b => b
  | Except.error _ => false

/-- Whether a conversion was attempted for this file and returned `True`. -/
def convSuccess (r : FileRec) : Bool :=
  match r.conv with
  | none => false
  | some c =>
    match c.result with
    | Except.ok true => true
    | _ => false

/-- The guide entry the loop would build for this file (lines 108-111). -/
def entryOf (r : FileRec) : Entry := ⟨r.title, r.pdfName⟩

/-- Whether an existing-target state counts as current: the target exists
and its mtime is strictly greater than the source's (line 98). -/
def upToDate (srcM : Nat) (t : Option Nat) : Bool :=
  match t with
  | none => false
  | some tm => decide (srcM < tm)

/-- The environment of one run: the filesystem and COM behaviour the script
observes. `tgt0` maps a PDF file name in the target directory to its mtime
(`none` = absent); `oracle f` is the COM behaviour when converting source
file `f`; `convMtime f` is the mtime a PDF freshly written from `f` gets. -/
structure RunEnv where
  srcDirExists : Bool
  listing : List String
  srcMtime : String → Nat
  tgt0 : String → Option Nat
  oracle : String → ComOracle
  convMtime : String → Nat

/-- The staleness check (lines 94-100): `should_convert` starts `True`; if
the target exists and its mtime is strictly greater than the source's, it
becomes `False`. -/
def shouldConvertOf (env : RunEnv) (tgt : String → Option Nat) (f : String) : Bool :=
  match tgt (pdfNameOf f) with
  | none => true
  | some tm => if env.srcMtime f < tm then false else true

/-- The conversion attempt of one iteration (lines 102-105): performed
exactly when `should_convert` holds.  The input exists (it was just listed
in the source directory). -/
def convOf (env : RunEnv) (tgt : String → Option Nat) (f : String) : Option ConvOutput :=
  if shouldConvertOf env tgt f then
    some (convert_ppt_to_pdf (env.oracle f) true f (pdfNameOf f))
  else none

/-- The `success` variable after the conversion block (lines 103-105):
`True` when skipped, otherwise what the conversion returned (or the
exception, had one escaped). -/
def resultOf (env : RunEnv) (tgt : String → Option Nat) (f : String) :
    Except String Bool :=
  match convOf env tgt f with
  | none => Except.ok true
  | some c => c.result

/-- Whether this iteration wrote the target PDF. -/
def wroteOf (env : RunEnv) (tgt : String → Option Nat) (f : String) : Bool :=
  match convOf env tgt f with
  | none => false
  | some c => c.wroteTarget

/-- Target-directory state after one iteration: a successful `SaveAs`
(over)writes the derived PDF with a fresh mtime. -/
def tgtNextOf (env : RunEnv) (tgt : String → Option Nat) (f : String) :
    String → Option Nat :=
  if wroteOf env tgt f then
    fun k => if k = pdfNameOf f then some (env.convMtime f) else tgt k
  else tgt

/-- One iteration of the loop body (lines 86-111): returns the record of
what happened plus the updated target-directory state. -/
def processFile (env : RunEnv) (tgt : String → Option Nat) (f : String) :
    FileRec × (String → Option Nat) :=
  (⟨f, splitextBase f, pdfNameOf f, (source_dir, f), (target_dir, pdfNameOf f),
    tgt (pdfNameOf f), shouldConvertOf env tgt f, convOf env tgt f,
    resultOf env tgt f⟩,
   tgtNextOf env tgt f)

/-- The whole `for` loop: processes the candidates in order, threading the
target-directory state; stops with `Except.error` if an exception escaped
one iteration (which would crash the run before `list.json` is written). -/
def processFold (env : RunEnv) (tgt : String → Option Nat) :
    List String → Except String (List FileRec × (String → Option Nat))
  | [] => Except.ok ([], tgt)
  | f :: fs =>
    match resultOf env tgt f with
    | Except.error e => Except.error e
    | Except.ok _ =>
      match processFold env (tgtNextOf env tgt f) fs with
      | Except.error e => Except.error e
      | Except.ok (rs, t) => Except.ok ((processFile env tgt f).1 :: rs, t)

/-- `ppt_files` (line 75): the listing filtered to presentation extensions. -/
def candidatesOf (env : RunEnv) : List String := env.listing.filter isPptName

/-- Observable outcome of one run of the script's `__main__` block. -/
structure RunOutcome where
  /-- Whether the run ended at one of the two `sys.exit(0)` calls. -/
  earlyExit : Bool
  /-- Whether `os.makedirs(source_dir)` ran (line 67). -/
  createdSrcDir : Bool
  /-- Messages printed outside the loop before any processing. -/
  runLogs : List String
  /-- The per-file records, in processing order. -/
  files : List FileRec
  /-- `some entries` when `list.json` was written with these entries,
  `none` when it was not written at all. -/
  manifest : Option (List Entry)
  /-- Final state of the target directory's PDF files. -/
  tgtFinal : String → Option Nat
  /-- An exception escaping the run, if any. -/
  crashed : Option String
  /-- The process exit status. -/
  exitCode : Nat

/-- The `__main__` block (lines 58-122). -/
def runMain (env : RunEnv) : RunOutcome :=
  if env.srcDirExists then
    let cands := candidatesOf env
    if cands.isEmpty then
      { earlyExit := true
        createdSrcDir := false
        runLogs := ["No PowerPoint files found in " ++ source_dir,
                    "Please place your .pptx files there and run this script again."]
        files := []
        manifest := none
        tgtFinal := env.tgt0
        crashed := none
        exitCode := 0 }
    else
      match processFold env env.tgt0 cands with
      | Except.error e =>
        { earlyExit := false
          createdSrcDir := false
          runLogs := []
          files := []
          manifest := none
          tgtFinal := env.tgt0
          crashed := some e
          exitCode := 1 }
      | Except.ok (recs, tgtF) =>
        { earlyExit := false
          createdSrcDir := false
          runLogs := []
          files := recs
          manifest := some ((recs.filter recOk).map entryOf)
          tgtFinal := tgtF
          crashed := none
          exitCode := 0 }
  else
    { earlyExit := true
      createdSrcDir := true
      runLogs := ["Created source directory: " ++ source_dir,
                  "Please place your PPTX files in this folder."]
      files := []
      manifest := none
      tgtFinal := env.tgt0
      crashed := none
      exitCode := 0 }

/-- The environment a second, back-to-back run observes when no source file
changed: identical except that the target directory now holds what the
first run left there. -/
def secondEnv (env : RunEnv) : RunEnv := { env with tgt0 := (runMain env).tgtFinal }

/-! ### Lemmas about one conversion attempt -/

theorem finalizeErr_eq_none (o : ComOracle) (p a : Bool) : finalizeErr o p a = none := by
  unfold finalizeErr tryPass
  cases p <;> cases a <;> rfl

theorem convert_result_ok (o : ComOracle) (b : Bool) (i out : String) :
    ∃ bb, (convert_ppt_to_pdf o b i out).result = Except.ok bb := by
  unfold convert_ppt_to_pdf
  cases b
  · exact ⟨false, rfl⟩
  · cases o.createErr <;> cases o.openErr <;> cases o.saveErr <;>
      simp [applyFinally, finalizeErr_eq_none]

theorem convert_caught_failed (o : ComOracle) (i out e : String)
    (h : (convert_ppt_to_pdf o true i out).caught = some e) :
    (convert_ppt_to_pdf o true i out).result = Except.ok false ∧
    ("Converting " ++ i ++ "...") ∈ (convert_ppt_to_pdf o true i out).logs ∧
    (convert_ppt_to_pdf o true i out).wroteTarget = false := by
  unfold convert_ppt_to_pdf at h ⊢
  rcases hc : o.createErr with _ | e1
  · rcases ho : o.openErr with _ | e2
    · rcases hs : o.saveErr with _ | e3
      · simp [hc, ho, hs] at h
      · simp [hc, ho, hs, applyFinally, finalizeErr_eq_none]
    · simp [hc, ho, applyFinally, finalizeErr_eq_none]
  · simp [hc, applyFinally, finalizeErr_eq_none]

theorem convert_all_ok (o : ComOracle) (i out : String)
    (hc : o.createErr = none) (ho : o.openErr = none) (hs : o.saveErr = none) :
    (convert_ppt_to_pdf o true i out).result = Except.ok true ∧
    (convert_ppt_to_pdf o true i out).wroteTarget = true := by
  unfold convert_ppt_to_pdf
  rw [hc, ho, hs]
  simp [applyFinally, finalizeErr_eq_none]

theorem convert_ok_wrote (o : ComOracle) (i out : String)
    (h : (convert_ppt_to_pdf o true i out).result = Except.ok true) :
    (convert_ppt_to_pdf o true i out).wroteTarget = true := by
  unfold convert_ppt_to_pdf at h ⊢
  rcases hc : o.createErr with _ | e1
  · rcases ho : o.openErr with _ | e2
    · rcases hs : o.saveErr with _ | e3
      · simp [hc, ho, hs]
      · simp [hc, ho, hs, applyFinally, finalizeErr_eq_none] at h
    · simp [hc, ho, applyFinally, finalizeErr_eq_none] at h
  · simp [hc, applyFinally, finalizeErr_eq_none] at h

/-! ### Lemmas about one loop iteration -/

theorem resultOf_ok (env : RunEnv) (tgt : String → Option Nat) (f : String) :
    ∃ b, resultOf env tgt f = Except.ok b := by
  unfold resultOf convOf
  cases hsc : shouldConvertOf env tgt f
  · exact ⟨true, rfl⟩
  · simpa using convert_result_ok (env.oracle f) true f (pdfNameOf f)

theorem shouldConvertOf_eq (env : RunEnv) (tgt : String → Option Nat) (f : String) :
    shouldConvertOf env tgt f = !upToDate (env.srcMtime f) (tgt (pdfNameOf f)) := by
  unfold shouldConvertOf upToDate
  cases tgt (pdfNameOf f) with
  | none => rfl
  | some tm => by_cases h : env.srcMtime f < tm <;> simp [h]

theorem sc_false_iff (env : RunEnv) (tgt : String → Option Nat) (f : String) :
    shouldConvertOf env tgt f = false ↔
      ∃ tm, tgt (pdfNameOf f) = some tm ∧ env.srcMtime f < tm := by
  unfold shouldConvertOf
  cases tgt (pdfNameOf f) with
  | none => simp
  | some tm =>
    by_cases h : env.srcMtime f < tm <;> simp [h]

theorem convOf_isSome (env : RunEnv) (tgt : String → Option Nat) (f : String) :
    (convOf env tgt f).isSome = shouldConvertOf env tgt f := by
  unfold convOf
  cases h : shouldConvertOf env tgt f <;> simp [h]

theorem convOf_of_sc_false (env : RunEnv) (tgt : String → Option Nat) (f : String)
    (h : shouldConvertOf env tgt f = false) : convOf env tgt f = none := by
  unfold convOf
  rw [h]
  rfl

theorem resultOf_of_sc_false (env : RunEnv) (tgt : String → Option Nat) (f : String)
    (h : shouldConvertOf env tgt f = false) : resultOf env tgt f = Except.ok true := by
  unfold resultOf
  rw [convOf_of_sc_false env tgt f h]

theorem wroteOf_of_sc_false (env : RunEnv) (tgt : String → Option Nat) (f : String)
    (h : shouldConvertOf env tgt f = false) : wroteOf env tgt f = false := by
  unfold wroteOf
  rw [convOf_of_sc_false env tgt f h]

theorem tgtNextOf_of_sc_false (env : RunEnv) (tgt : String → Option Nat) (f : String)
    (h : shouldConvertOf env tgt f = false) : tgtNextOf env tgt f = tgt := by
  unfold tgtNextOf
  rw [wroteOf_of_sc_false env tgt f h]
  rfl

/-- A COM session in which creating the application, opening the
presentation and exporting it all succeed. -/
def convOkOracle (o : ComOracle) : Prop :=
  o.createErr = none ∧ o.openErr = none ∧ o.saveErr = none

theorem resultOf_all_ok (env : RunEnv) (tgt : String → Option Nat) (f : String)
    (hok : convOkOracle (env.oracle f)) : resultOf env tgt f = Except.ok true := by
  cases h : shouldConvertOf env tgt f
  · exact resultOf_of_sc_false env tgt f h
  · unfold resultOf convOf
    rw [h]
    simpa using (convert_all_ok (env.oracle f) f (pdfNameOf f) hok.1 hok.2.1 hok.2.2).1

theorem wroteOf_of_ok (env : RunEnv) (tgt : String → Option Nat) (f : String)
    (hsc : shouldConvertOf env tgt f = true) (hok : convOkOracle (env.oracle f)) :
    wroteOf env tgt f = true := by
  unfold wroteOf convOf
  rw [hsc]
  simpa using (convert_all_ok (env.oracle f) f (pdfNameOf f) hok.1 hok.2.1 hok.2.2).2

/-! ### Substring facts for log messages -/

theorem listPrefixOf_refl_append (n s : List Char) : listPrefixOf n (n ++ s) = true := by
  induction n with
  | nil => rfl
  | cons a as ih => simp [listPrefixOf, ih]

theorem listInfixOf_of_prefixOf (n h : List Char) (hp : listPrefixOf n h = true) :
    listInfixOf n h = true := by
  cases h with
  | nil =>
    cases n with
    | nil => rfl
    | cons a as => simp [listPrefixOf] at hp
  | cons c cs => simp [listInfixOf, hp]

theorem listInfixOf_mid (p n s : List Char) : listInfixOf n (p ++ (n ++ s)) = true := by
  induction p with
  | nil => exact listInfixOf_of_prefixOf _ _ (listPrefixOf_refl_append n s)
  | cons c cs ih => simp [listInfixOf, ih]

theorem strIn_mid (p n s : String) : strIn n (p ++ n ++ s) = true := by
  show listInfixOf n.data (p ++ n ++ s).data = true
  have hd : (p ++ n ++ s).data = p.data ++ (n.data ++ s.data) := by
    simp [String.data_append]
  rw [hd]
  exact listInfixOf_mid p.data n.data s.data

/-- Whether any printed line contains the given file name. -/
def logsMention (name : String) (logs : List String) : Bool :=
  logs.any (fun m => strIn name m)

theorem logsMention_of_mem (name m : String) (logs : List String)
    (hm : m ∈ logs) (h : strIn name m = true) : logsMention name logs = true := by
  unfold logsMention
  exact List.any_eq_true.mpr ⟨m, hm, h⟩

/-! ### Lemmas about the loop -/

theorem processFold_ok (env : RunEnv) (l : List String) :
    ∀ tgt, ∃ rs t, processFold env tgt l = Except.ok (rs, t) := by
  induction l with
  | nil => exact fun tgt => ⟨[], tgt, rfl⟩
  | cons f fs ih =>
    intro tgt
    obtain ⟨b, hb⟩ := resultOf_ok env tgt f
    obtain ⟨rs, t, hf⟩ := ih (tgtNextOf env tgt f)
    exact ⟨(processFile env tgt f).1 :: rs, t, by rw [processFold, hb, hf]⟩

theorem processFold_mem (env : RunEnv) (l : List String) :
    ∀ tgt rs t, processFold env tgt l = Except.ok (rs, t) →
      ∀ r ∈ rs, ∃ tgtI, r = (processFile env tgtI r.name).1 := by
  induction l with
  | nil =>
    intro tgt rs t h r hr
    rw [processFold] at h
    cases h
    cases hr
  | cons f fs ih =>
    intro tgt rs t h r hr
    rw [processFold] at h
    obtain ⟨b, hb⟩ := resultOf_ok env tgt f
    rw [hb] at h
    obtain ⟨rs2, t2, hf⟩ := processFold_ok env fs (tgtNextOf env tgt f)
    rw [hf] at h
    simp only [Except.ok.injEq, Prod.mk.injEq] at h
    obtain ⟨hrs, hts⟩ := h
    subst hrs
    rcases List.mem_cons.mp hr with h1 | h1
    · refine ⟨tgt, ?_⟩
      rw [h1]
      rfl
    · exact ih (tgtNextOf env tgt f) rs2 t2 hf r h1

theorem processFold_entries (env : RunEnv) (l : List String) :
    ∀ tgt rs t, processFold env tgt l = Except.ok (rs, t) →
      rs.map entryOf = l.map (fun f => ⟨splitextBase f, pdfNameOf f⟩) := by
  induction l with
  | nil =>
    intro tgt rs t h
    rw [processFold] at h
    cases h
    rfl
  | cons f fs ih =>
    intro tgt rs t h
    rw [processFold] at h
    obtain ⟨b, hb⟩ := resultOf_ok env tgt f
    rw [hb] at h
    obtain ⟨rs2, t2, hf⟩ := processFold_ok env fs (tgtNextOf env tgt f)
    rw [hf] at h
    simp only [Except.ok.injEq, Prod.mk.injEq] at h
    obtain ⟨hrs, hts⟩ := h
    subst hrs
    simpa [entryOf, processFile] using ih (tgtNextOf env tgt f) rs2 t2 hf

theorem processFold_length (env : RunEnv) (l : List String)
    (tgt : String → Option Nat) (rs : List FileRec) (t : String → Option Nat)
    (h : processFold env tgt l = Except.ok (rs, t)) : rs.length = l.length := by
  have := processFold_entries env l tgt rs t h
  have h1 : (rs.map entryOf).length = (l.map (fun f => Entry.mk (splitextBase f) (pdfNameOf f))).length := by rw [this]
  simpa using h1

/-! ### Lemmas about the run -/

theorem runMain_crashed_none (env : RunEnv) : (runMain env).crashed = none := by
  unfold runMain
  cases hd : env.srcDirExists
  · rfl
  · simp only [if_true]
    cases he : (candidatesOf env).isEmpty
    · obtain ⟨rs, t, hf⟩ := processFold_ok env (candidatesOf env) env.tgt0
      simp [he, hf]
    · simp [he]

theorem runMain_files_sound (env : RunEnv) (r : FileRec)
    (hr : r ∈ (runMain env).files) :
    ∃ rs t, processFold env env.tgt0 (candidatesOf env) = Except.ok (rs, t) ∧
      r ∈ rs ∧ (runMain env).files = rs ∧
      (runMain env).manifest = some ((rs.filter recOk).map entryOf) := by
  unfold runMain at *
  cases hd : env.srcDirExists <;> rw [hd] at hr
  · simp at hr
  · simp only [if_true] at hr ⊢
    cases he : (candidatesOf env).isEmpty <;> rw [he] at hr
    · obtain ⟨rs, t, hf⟩ := processFold_ok env (candidatesOf env) env.tgt0
      rw [hf] at hr ⊢
      exact ⟨rs, t, rfl, by simpa using hr, by simp [he, hf], by simp [he, hf]⟩
    · simp at hr

theorem runMain_manifest_some (env : RunEnv) (hd : env.srcDirExists = true)
    (hne : (candidatesOf env).isEmpty = false) :
    ∃ m, (runMain env).manifest = some m := by
  unfold runMain
  obtain ⟨rs, t, hf⟩ := processFold_ok env (candidatesOf env) env.tgt0
  simp [hd, hne, hf]

theorem runMain_run_fields (env : RunEnv) (hd : env.srcDirExists = true)
    (hne : (candidatesOf env).isEmpty = false)
    (rs : List FileRec) (t : String → Option Nat)
    (hf : processFold env env.tgt0 (candidatesOf env) = Except.ok (rs, t)) :
    (runMain env).files = rs ∧
    (runMain env).manifest = some ((rs.filter recOk).map entryOf) ∧
    (runMain env).tgtFinal = t := by
  unfold runMain
  simp [hd, hne, hf]

theorem runMain_manifest_shape (env : RunEnv) :
    (runMain env).manifest = none ∨
    (runMain env).manifest = some (((runMain env).files.filter recOk).map entryOf) := by
  unfold runMain
  cases hd : env.srcDirExists
  · exact Or.inl rfl
  · simp only [if_true]
    cases he : (candidatesOf env).isEmpty
    · obtain ⟨rs, t, hf⟩ := processFold_ok env (candidatesOf env) env.tgt0
      rw [hf]
      exact Or.inr rfl
    · exact Or.inl rfl

/-! ### The appended-entry characterisation -/

theorem recOk_char (env : RunEnv) (tgt : String → Option Nat) (f : String) :
    recOk (processFile env tgt f).1 =
      (upToDate (env.srcMtime f) (tgt (pdfNameOf f)) ||
        convSuccess (processFile env tgt f).1) := by
  have hsc := shouldConvertOf_eq env tgt f
  cases hb : shouldConvertOf env tgt f
  · have hu : upToDate (env.srcMtime f) (tgt (pdfNameOf f)) = true := by
      rw [hb] at hsc
      simpa using hsc.symm
    have hres := resultOf_of_sc_false env tgt f hb
    have hconv := convOf_of_sc_false env tgt f hb
    show (match resultOf env tgt f with
          | Except.ok b => b
          | Except.error _ => false) = _
    rw [hres, hu]
    rfl
  · have hu : upToDate (env.srcMtime f) (tgt (pdfNameOf f)) = false := by
      rw [hb] at hsc
      simpa using hsc.symm
    show (match resultOf env tgt f with
          | Except.ok b => b
          | Except.error _ => false) =
        (upToDate (env.srcMtime f) (tgt (pdfNameOf f)) ||
          match convOf env tgt f with
          | none => false
          | some c =>
            match c.result with
            | Except.ok true => true
            | _ => false)
    unfold resultOf convOf
    rw [hb, hu]
    simp only [if_true, Bool.false_or]
    cases hres : (convert_ppt_to_pdf (env.oracle f) true f (pdfNameOf f)).result with
    | ok bb => cases bb <;> rfl
    | error e => rfl

/-! ### Invariants used for the two-runs analysis -/

theorem tgtNextOf_pres (env : RunEnv) (tgt : String → Option Nat) (f k : String)
    (s : Nat) (hck : wroteOf env tgt f = true → env.srcMtime f < env.convMtime f)
    (hko : ∃ tm, tgt k = some tm ∧ s < tm) :
    ∃ tm, tgtNextOf env tgt f k = some tm ∧ s < tm := by
  obtain ⟨tm, htm, hs⟩ := hko
  unfold tgtNextOf
  cases hw : wroteOf env tgt f
  · exact ⟨tm, htm, hs⟩
  · simp only [if_true]
    by_cases hk : k = pdfNameOf f
    · refine ⟨env.convMtime f, by simp [hk], ?_⟩
      have hsc : shouldConvertOf env tgt f = true := by
        by_contra hc
        have hc2 : shouldConvertOf env tgt f = false := by
          cases h2 : shouldConvertOf env tgt f
          · rfl
          · exact absurd h2 hc
        rw [wroteOf_of_sc_false env tgt f hc2] at hw
        cases hw
      have hle : tm ≤ env.srcMtime f := by
        unfold shouldConvertOf at hsc
        rw [hk] at htm
        rw [htm] at hsc
        by_contra hgt
        push_neg at hgt
        simp [hgt] at hsc
      exact lt_of_lt_of_le hs (le_of_lt (lt_of_le_of_lt hle (hck hw)))
    · exact ⟨tm, by simp [hk, htm], hs⟩

theorem tgtNextOf_estab (env : RunEnv) (tgt : String → Option Nat) (f : String)
    (hok : convOkOracle (env.oracle f)) (hck : env.srcMtime f < env.convMtime f) :
    ∃ tm, tgtNextOf env tgt f (pdfNameOf f) = some tm ∧ env.srcMtime f < tm := by
  cases hsc : shouldConvertOf env tgt f
  · obtain ⟨tm, ht, hlt⟩ := (sc_false_iff env tgt f).mp hsc
    rw [tgtNextOf_of_sc_false env tgt f hsc]
    exact ⟨tm, ht, hlt⟩
  · have hw := wroteOf_of_ok env tgt f hsc hok
    unfold tgtNextOf
    rw [hw]
    exact ⟨env.convMtime f, by simp, hck⟩

theorem processFold_inv (env : RunEnv) (l : List String) :
    ∀ tgt rs t, processFold env tgt l = Except.ok (rs, t) →
      (∀ r ∈ rs, ∀ c, r.conv = some c → c.result = Except.ok true) →
      (∀ r ∈ rs, ∀ c, r.conv = some c → c.wroteTarget = true →
        env.srcMtime r.name < env.convMtime r.name) →
      (∀ r ∈ rs, recOk r = true) ∧
      (∀ f ∈ l, ∃ tm, t (pdfNameOf f) = some tm ∧ env.srcMtime f < tm) ∧
      (∀ k s, (∃ tm, tgt k = some tm ∧ s < tm) →
        ∃ tm, t k = some tm ∧ s < tm) := by
  induction l with
  | nil =>
    intro tgt rs t h _ _
    rw [processFold] at h
    cases h
    exact ⟨by simp, by simp, fun k s hk => hk⟩
  | cons f fs ih =>
    intro tgt rs t h hok hck
    rw [processFold] at h
    obtain ⟨b, hb⟩ := resultOf_ok env tgt f
    rw [hb] at h
    obtain ⟨rs2, t2, hf2⟩ := processFold_ok env fs (tgtNextOf env tgt f)
    rw [hf2] at h
    simp only [Except.ok.injEq, Prod.mk.injEq] at h
    obtain ⟨hrs, hts⟩ := h
    subst hrs
    subst hts
    have hok0 := hok (processFile env tgt f).1 (List.mem_cons_self _ _)
    have hck0 := hck (processFile env tgt f).1 (List.mem_cons_self _ _)
    have hwc : wroteOf env tgt f = true → env.srcMtime f < env.convMtime f := by
      intro hw
      unfold wroteOf at hw
      cases hcv : convOf env tgt f with
      | none => rw [hcv] at hw; cases hw
      | some c =>
        rw [hcv] at hw
        exact hck0 c hcv hw
    have hres : resultOf env tgt f = Except.ok true := by
      unfold resultOf
      cases hcv : convOf env tgt f with
      | none => rfl
      | some c => exact hok0 c hcv
    have hestab : ∃ tm, tgtNextOf env tgt f (pdfNameOf f) = some tm ∧
        env.srcMtime f < tm := by
      cases hsc : shouldConvertOf env tgt f
      · obtain ⟨tm, ht, hlt⟩ := (sc_false_iff env tgt f).mp hsc
        rw [tgtNextOf_of_sc_false env tgt f hsc]
        exact ⟨tm, ht, hlt⟩
      · have hcv : convOf env tgt f =
            some (convert_ppt_to_pdf (env.oracle f) true f (pdfNameOf f)) := by
          unfold convOf
          rw [hsc]
          rfl
        have hresc := hok0 _ hcv
        have hw := convert_ok_wrote (env.oracle f) f (pdfNameOf f) hresc
        have hwof : wroteOf env tgt f = true := by
          unfold wroteOf
          rw [hcv]
          exact hw
        unfold tgtNextOf
        rw [hwof]
        exact ⟨env.convMtime f, by simp, hwc hwof⟩
    have ihr := ih (tgtNextOf env tgt f) rs2 t2 hf2
      (fun r hr c hc => hok r (List.mem_cons_of_mem _ hr) c hc)
      (fun r hr c hc hw => hck r (List.mem_cons_of_mem _ hr) c hc hw)
    refine ⟨?_, ?_, ?_⟩
    · intro r hr
      rcases List.mem_cons.mp hr with h1 | h1
      · rw [h1]
        show (match resultOf env tgt f with
              | Except.ok b => b
              | Except.error _ => false) = true
        rw [hres]
      · exact ihr.1 r h1
    · intro g hg
      rcases List.mem_cons.mp hg with h1 | h1
      · subst h1
        exact ihr.2.2 (pdfNameOf g) (env.srcMtime g) hestab
      · exact ihr.2.1 g h1
    · intro k s hks
      exact ihr.2.2 k s (tgtNextOf_pres env tgt f k s hwc hks)

theorem processFold_all_current (env : RunEnv) (l : List String) :
    ∀ tgt, (∀ f ∈ l, ∃ tm, tgt (pdfNameOf f) = some tm ∧ env.srcMtime f < tm) →
      ∃ rs, processFold env tgt l = Except.ok (rs, tgt) ∧
        (∀ r ∈ rs, r.shouldConvert = false ∧ recOk r = true) ∧
        rs.map entryOf = l.map (fun f => ⟨splitextBase f, pdfNameOf f⟩) := by
  induction l with
  | nil => exact fun tgt _ => ⟨[], rfl, by simp, rfl⟩
  | cons f fs ih =>
    intro tgt h
    have hsc : shouldConvertOf env tgt f = false :=
      (sc_false_iff env tgt f).mpr (h f (List.mem_cons_self f fs))
    have hres := resultOf_of_sc_false env tgt f hsc
    have hnext := tgtNextOf_of_sc_false env tgt f hsc
    obtain ⟨rs, hfold, hall, hmap⟩ := ih tgt (fun g hg => h g (List.mem_cons_of_mem f hg))
    refine ⟨(processFile env tgt f).1 :: rs, ?_, ?_, ?_⟩
    · rw [processFold, hres, hnext, hfold]
    · intro r hr
      rcases List.mem_cons.mp hr with h1 | h1
      · rw [h1]
        refine ⟨hsc, ?_⟩
        show (match resultOf env tgt f with
              | Except.ok b => b
              | Except.error _ => false) = true
        rw [hres]
      · exact hall r h1
    · simp only [List.map_cons, hmap]
      rfl

/-- In a run whose COM oracle always succeeds, every attempted conversion
reports success. -/
theorem attempted_ok_of_convOk (env : RunEnv)
    (hoke : ∀ f, convOkOracle (env.oracle f)) :
    ∀ r ∈ (runMain env).files, ∀ c, r.conv = some c →
      c.result = Except.ok true := by
  intro r hr c hc
  obtain ⟨rs, t, hf, hm, _, _⟩ := runMain_files_sound env r hr
  obtain ⟨tgtI, he⟩ := processFold_mem env _ _ _ _ hf r hm
  have hconv : r.conv = convOf env tgtI r.name := by
    rw [he]
    rfl
  rw [hconv] at hc
  unfold convOf at hc
  cases h2 : shouldConvertOf env tgtI r.name <;> rw [h2] at hc
  · cases hc
  · simp only [if_true, Option.some.injEq] at hc
    rw [← hc]
    exact (convert_all_ok (env.oracle r.name) r.name (pdfNameOf r.name)
      (hoke r.name).1 (hoke r.name).2.1 (hoke r.name).2.2).1

/-- A global clock assumption gives the per-written-file one. -/
theorem clock_of_global (env : RunEnv)
    (h : ∀ f, env.srcMtime f < env.convMtime f) :
    ∀ r ∈ (runMain env).files, ∀ c, r.conv = some c → c.wroteTarget = true →
      env.srcMtime r.name < env.convMtime r.name :=
  fun r _ _ _ _ => h r.name

/-! ### Concrete environments used as witnesses and counterexamples -/

/-- COM session in which every call succeeds. -/
def oracleAllOk : ComOracle := ⟨none, none, none, none, none⟩

/-- COM session in which `Presentations.Open` raises a generic exception. -/
def oracleBoom : ComOracle := ⟨none, some "boom", none, none, none⟩

/-- COM session in which `SaveAs` raises and the cleanup calls raise too. -/
def oracleSaveFail : ComOracle := ⟨none, none, some "x", some "c", some "q"⟩

/-- Two fresh presentations, empty target directory, working PowerPoint. -/
def envTwo : RunEnv :=
  { srcDirExists := true
    listing := ["Intro.pptx", "Advanced.ppt"]
    srcMtime := fun _ => 5
    tgt0 := fun _ => none
    oracle := fun _ => oracleAllOk
    convMtime := fun _ => 9 }

/-- The loop record for `Intro.pptx` in `envTwo`. -/
def recIntro : FileRec := (processFile envTwo envTwo.tgt0 "Intro.pptx").1

/-- The loop record for `Advanced.ppt` in `envTwo`. -/
def recAdvanced : FileRec :=
  (processFile envTwo (tgtNextOf envTwo envTwo.tgt0 "Intro.pptx") "Advanced.ppt").1

theorem files_envTwo : (runMain envTwo).files = [recIntro, recAdvanced] := rfl

theorem mem_recIntro : recIntro ∈ (runMain envTwo).files := by
  rw [files_envTwo]
  exact List.mem_cons_self _ _

/-- Two source files sharing the base name `Intro`, both stale. -/
def envDup : RunEnv :=
  { srcDirExists := true
    listing := ["Intro.pptx", "Intro.ppt"]
    srcMtime := fun _ => 9
    tgt0 := fun _ => none
    oracle := fun _ => oracleAllOk
    convMtime := fun _ => 9 }

/-- A run whose source directory does not exist. -/
def envNoDir : RunEnv :=
  { srcDirExists := false
    listing := []
    srcMtime := fun _ => 0
    tgt0 := fun _ => none
    oracle := fun _ => oracleAllOk
    convMtime := fun _ => 0 }

/-- One candidate whose conversion fails (PowerPoint open raises). -/
def envFail : RunEnv :=
  { srcDirExists := true
    listing := ["A.pptx"]
    srcMtime := fun _ => 5
    tgt0 := fun _ => none
    oracle := fun _ => oracleBoom
    convMtime := fun _ => 9 }

/-- `Broken.pptx` fails to convert, `Good.pptx` converts fine. -/
def envBroken : RunEnv :=
  { srcDirExists := true
    listing := ["Broken.pptx", "Good.pptx"]
    srcMtime := fun _ => 5
    tgt0 := fun _ => none
    oracle := fun f => if f = "Broken.pptx" then oracleBoom else oracleAllOk
    convMtime := fun _ => 9 }

/-- The loop record for `Broken.pptx` in `envBroken`. -/
def recBroken : FileRec := (processFile envBroken envBroken.tgt0 "Broken.pptx").1

/-- The loop record for `Good.pptx` in `envBroken`. -/
def recGood : FileRec :=
  (processFile envBroken (tgtNextOf envBroken envBroken.tgt0 "Broken.pptx") "Good.pptx").1

/-- The conversion attempt performed for `Broken.pptx` in `envBroken`. -/
def convBroken : ConvOutput :=
  convert_ppt_to_pdf (envBroken.oracle "Broken.pptx") true "Broken.pptx"
    (pdfNameOf "Broken.pptx")

theorem files_envBroken : (runMain envBroken).files = [recBroken, recGood] := rfl

theorem mem_recBroken : recBroken ∈ (runMain envBroken).files := by
  rw [files_envBroken]
  exact List.mem_cons_self _ _

end UpdateGuidePpt

namespace UpdateGuidePpt

/-! ## The claims -/

/-- C1: for every candidate processed in a run, a guide entry is appended
exactly when the staleness check found the target already current (it
existed with a strictly later mtime) or the conversion attempt reported
success; the written manifest is exactly the appended entries in processing
order, so files whose attempt failed contribute nothing. -/
theorem claimC1_entry_iff (env : RunEnv) (r : FileRec)
    (hr : r ∈ (runMain env).files) :
    recOk r = (upToDate (env.srcMtime r.name) r.tgtAt || convSuccess r) ∧
    (runMain env).manifest =
      some (((runMain env).files.filter recOk).map entryOf) := by
  obtain ⟨rs, t, hf, hm, hfiles, hman⟩ := runMain_files_sound env r hr
  obtain ⟨tgtI, he⟩ := processFold_mem env _ _ _ _ hf r hm
  constructor
  · rw [he]
    exact recOk_char env tgtI r.name
  · rw [hman, hfiles]

/-- C1 witness: the first file of the concrete two-file environment. -/
theorem claimC1_entry_iff_witness :
    recOk recIntro =
      (upToDate (envTwo.srcMtime recIntro.name) recIntro.tgtAt ||
        convSuccess recIntro) ∧
    (runMain envTwo).manifest =
      some (((runMain envTwo).files.filter recOk).map entryOf) :=
  claimC1_entry_iff envTwo recIntro mem_recIntro

/-- C2: for every candidate, conversion is attempted exactly when the
target is not current — always when the derived target does not exist, and,
when it exists, exactly when its mtime is less than or equal to the
source's (skipped exactly when strictly greater). -/
theorem claimC2_staleness (env : RunEnv) (r : FileRec)
    (hr : r ∈ (runMain env).files) :
    r.conv.isSome = !upToDate (env.srcMtime r.name) r.tgtAt ∧
    r.shouldConvert = !upToDate (env.srcMtime r.name) r.tgtAt := by
  obtain ⟨rs, t, hf, hm, _, _⟩ := runMain_files_sound env r hr
  obtain ⟨tgtI, he⟩ := processFold_mem env _ _ _ _ hf r hm
  constructor
  · rw [he]
    exact (convOf_isSome env tgtI r.name).trans (shouldConvertOf_eq env tgtI r.name)
  · rw [he]
    exact shouldConvertOf_eq env tgtI r.name

/-- C2 witness: a file with no pre-existing target is attempted. -/
theorem claimC2_staleness_witness :
    recIntro.conv.isSome =
      !upToDate (envTwo.srcMtime recIntro.name) recIntro.tgtAt :=
  (claimC2_staleness envTwo recIntro mem_recIntro).1

end UpdateGuidePpt

namespace UpdateGuidePpt

/-- C6: when the source directory is absent, the run creates it, prints the
instructional messages, processes no file, writes no manifest, and ends at
`sys.exit(0)` (success status). -/
theorem claimC6_missing_dir (env : RunEnv) (h : env.srcDirExists = false) :
    (runMain env).createdSrcDir = true ∧
    (runMain env).earlyExit = true ∧
    (runMain env).runLogs =
      ["Created source directory: " ++ source_dir,
       "Please place your PPTX files in this folder."] ∧
    (runMain env).files = [] ∧
    (runMain env).manifest = none ∧
    (runMain env).exitCode = 0 ∧
    (runMain env).crashed = none := by
  unfold runMain
  simp [h]

/-- C6 witness: the concrete missing-directory environment. -/
theorem claimC6_missing_dir_witness :
    (runMain envNoDir).createdSrcDir = true ∧
    (runMain envNoDir).earlyExit = true ∧
    (runMain envNoDir).runLogs =
      ["Created source directory: " ++ source_dir,
       "Please place your PPTX files in this folder."] ∧
    (runMain envNoDir).files = [] ∧
    (runMain envNoDir).manifest = none ∧
    (runMain envNoDir).exitCode = 0 ∧
    (runMain envNoDir).crashed = none :=
  claimC6_missing_dir envNoDir rfl

/-- C7: on every exit path of a conversion attempt with an existing input,
the handles that were opened are released in order — `Close` of the
presentation exactly when `Open` succeeded, then `Quit` of the application
exactly when `CreateObject` succeeded — and exceptions raised by `Close` or
`Quit` are swallowed: they change neither the returned result nor whether
the target was written nor the caught exception. -/
theorem claimC7_cleanup (o : ComOracle) (i out : String) :
    (o.createErr = none → o.openErr = none →
      (convert_ppt_to_pdf o true i out).events =
        [ComEvent.callCreate, ComEvent.callOpen, ComEvent.callSave,
         ComEvent.callClose, ComEvent.callQuit]) ∧
    (o.createErr = none → ∀ e2, o.openErr = some e2 →
      (convert_ppt_to_pdf o true i out).events =
        [ComEvent.callCreate, ComEvent.callOpen, ComEvent.callQuit]) ∧
    (∀ e1, o.createErr = some e1 →
      (convert_ppt_to_pdf o true i out).events = [ComEvent.callCreate]) ∧
    (∀ ce qe,
      (convert_ppt_to_pdf { o with closeErr := ce, quitErr := qe } true i out).result =
        (convert_ppt_to_pdf o true i out).result ∧
      (convert_ppt_to_pdf { o with closeErr := ce, quitErr := qe } true i out).wroteTarget =
        (convert_ppt_to_pdf o true i out).wroteTarget ∧
      (convert_ppt_to_pdf { o with closeErr := ce, quitErr := qe } true i out).caught =
        (convert_ppt_to_pdf o true i out).caught) := by
  unfold convert_ppt_to_pdf
  rcases hc : o.createErr with _ | e1
  · rcases ho : o.openErr with _ | e2
    · rcases hs : o.saveErr with _ | e3 <;>
        simp [hc, ho, hs, finalizeEvents, applyFinally, finalizeErr_eq_none]
    · simp [hc, ho, finalizeEvents, applyFinally, finalizeErr_eq_none]
  · simp [hc, finalizeEvents, applyFinally, finalizeErr_eq_none]

/-- C7 witness: a failing `SaveAs` with failing cleanup calls still closes,
quits, and reports the same failure. -/
theorem claimC7_cleanup_witness :
    (convert_ppt_to_pdf oracleSaveFail true "A.pptx" "A.pdf").events =
      [ComEvent.callCreate, ComEvent.callOpen, ComEvent.callSave,
       ComEvent.callClose, ComEvent.callQuit] ∧
    (convert_ppt_to_pdf { oracleSaveFail with closeErr := some "c2", quitErr := some "q2" }
        true "A.pptx" "A.pdf").result =
      (convert_ppt_to_pdf oracleSaveFail true "A.pptx" "A.pdf").result :=
  ⟨(claimC7_cleanup oracleSaveFail "A.pptx" "A.pdf").1 rfl rfl,
   ((claimC7_cleanup oracleSaveFail "A.pptx" "A.pdf").2.2.2 (some "c2") (some "q2")).1⟩

/-- C8: each processed file's guide entry is exactly
`{title := <base>, filename := <base>.pdf}` where `<base>` is the source
name with its extension removed, and the derived target path is that PDF
name inside the target directory. -/
theorem claimC8_naming (env : RunEnv) (r : FileRec)
    (hr : r ∈ (runMain env).files) :
    r.title = splitextBase r.name ∧
    r.pdfName = splitextBase r.name ++ ".pdf" ∧
    r.targetFile = (target_dir, splitextBase r.name ++ ".pdf") ∧
    entryOf r = ⟨splitextBase r.name, splitextBase r.name ++ ".pdf"⟩ := by
  obtain ⟨rs, t, hf, hm, _, _⟩ := runMain_files_sound env r hr
  obtain ⟨tgtI, he⟩ := processFold_mem env _ _ _ _ hf r hm
  refine ⟨?_, ?_, ?_, ?_⟩ <;> rw [he] <;> rfl

/-- C8 witness: `Intro.pptx` yields title `Intro` and target `Intro.pdf`. -/
theorem claimC8_naming_witness :
    recIntro.title = splitextBase recIntro.name ∧
    recIntro.pdfName = splitextBase recIntro.name ++ ".pdf" ∧
    recIntro.targetFile = (target_dir, splitextBase recIntro.name ++ ".pdf") ∧
    entryOf recIntro =
      ⟨splitextBase recIntro.name, splitextBase recIntro.name ++ ".pdf"⟩ :=
  claimC8_naming envTwo recIntro mem_recIntro

/-- C9: `Intro.pptx` and `Intro.ppt`, both converted successfully, produce
two identical manifest entries — nothing deduplicates titles or target
paths. -/
theorem claimC9_duplicates :
    (runMain envDup).manifest =
      some [⟨"Intro", "Intro.pdf"⟩, ⟨"Intro", "Intro.pdf"⟩] ∧
    ((runMain envDup).files.map fun r => r.conv.isSome) = [true, true] ∧
    ((runMain envDup).files.map fun r => convSuccess r) = [true, true] :=
  ⟨rfl, rfl, rfl⟩

/-- C10: a conversion called on a missing input path prints an error and
returns failure without performing any COM call (the application is never
instantiated) and without writing the output. -/
theorem claimC10_missing_input (o : ComOracle) (i out : String) :
    (convert_ppt_to_pdf o false i out).result = Except.ok false ∧
    (convert_ppt_to_pdf o false i out).events = [] ∧
    (convert_ppt_to_pdf o false i out).wroteTarget = false ∧
    (convert_ppt_to_pdf o false i out).logs =
      ["Error: Input file not found at " ++ i] :=
  ⟨rfl, rfl, rfl, rfl⟩

end UpdateGuidePpt

namespace UpdateGuidePpt

/-- C3: when the conversion of a candidate catches an exception, the call
returns `False` instead of propagating, a printed line names the file, the
file contributes no manifest entry, and the run still processes every
candidate and writes the manifest. -/
theorem claimC3_error_contained (env : RunEnv) (r : FileRec) (c : ConvOutput)
    (e : String) (hr : r ∈ (runMain env).files) (hc : r.conv = some c)
    (he : c.caught = some e) :
    c.result = Except.ok false ∧
    logsMention r.name c.logs = true ∧
    recOk r = false ∧
    (runMain env).crashed = none ∧
    (runMain env).files.length = (candidatesOf env).length ∧
    (runMain env).manifest =
      some (((runMain env).files.filter recOk).map entryOf) := by
  obtain ⟨rs, t, hf, hm, hfiles, hman⟩ := runMain_files_sound env r hr
  obtain ⟨tgtI, heq⟩ := processFold_mem env _ _ _ _ hf r hm
  have hconv : r.conv = convOf env tgtI r.name := by
    rw [heq]
    rfl
  rw [hconv] at hc
  have hceq : c = convert_ppt_to_pdf (env.oracle r.name) true r.name (pdfNameOf r.name) := by
    unfold convOf at hc
    cases h2 : shouldConvertOf env tgtI r.name <;> rw [h2] at hc
    · cases hc
    · simp only [if_true, Option.some.injEq] at hc
      exact hc.symm
  subst hceq
  have hcf := convert_caught_failed (env.oracle r.name) r.name (pdfNameOf r.name) e he
  have h3 : convOf env tgtI r.name =
      some (convert_ppt_to_pdf (env.oracle r.name) true r.name (pdfNameOf r.name)) := hc
  have hres2 : r.result = Except.ok false := by
    have hres : r.result = resultOf env tgtI r.name := by
      rw [heq]
      rfl
    rw [hres]
    unfold resultOf
    rw [h3]
    exact hcf.1
  refine ⟨hcf.1, ?_, ?_, runMain_crashed_none env, ?_, by rw [hman, hfiles]⟩
  · exact logsMention_of_mem r.name _ _ hcf.2.1 (strIn_mid "Converting " r.name "...")
  · unfold recOk
    rw [hres2]
  · rw [hfiles]
    exact processFold_length env _ _ _ _ hf

/-- C3 witness: `Broken.pptx` in the concrete two-file environment. -/
theorem claimC3_error_contained_witness :
    convBroken.result = Except.ok false ∧
    logsMention recBroken.name convBroken.logs = true ∧
    recOk recBroken = false ∧
    (runMain envBroken).crashed = none ∧
    (runMain envBroken).files.length = (candidatesOf envBroken).length ∧
    (runMain envBroken).manifest =
      some (((runMain envBroken).files.filter recOk).map entryOf) :=
  claimC3_error_contained envBroken recBroken convBroken "boom" mem_recBroken rfl rfl

/-- C4 as stated is false: with a missing source directory the run ends at
`sys.exit(0)` on line 70, before `list.json` is ever written, so no
manifest file is produced. -/
theorem claimC4_counterexample :
    envNoDir.srcDirExists = false ∧ (runMain envNoDir).manifest = none :=
  ⟨rfl, rfl⟩

/-- C4 amended: no per-file error ever escapes its file's processing (the
run never crashes), and every run that reaches the processing loop (source
directory present and at least one candidate) completes and writes the
manifest, possibly as an empty array; runs that exit early because the
source directory is missing or no candidate matches write no manifest. -/
theorem claimC4_amended (env : RunEnv) :
    (runMain env).crashed = none ∧
    (env.srcDirExists = true → (candidatesOf env).isEmpty = false →
      (runMain env).manifest =
        some (((runMain env).files.filter recOk).map entryOf)) := by
  refine ⟨runMain_crashed_none env, fun hd hne => ?_⟩
  rcases runMain_manifest_shape env with h | h
  · obtain ⟨m, hm⟩ := runMain_manifest_some env hd hne
    rw [h] at hm
    cases hm
  · exact h

/-- C4 amended witness: a processing run writes its manifest and no error
escapes. -/
theorem claimC4_amended_witness :
    (runMain envTwo).crashed = none ∧
    (runMain envTwo).manifest =
      some (((runMain envTwo).files.filter recOk).map entryOf) :=
  ⟨(claimC4_amended envTwo).1, (claimC4_amended envTwo).2 rfl rfl⟩

/-- C5 as stated is false: when the only candidate's conversion failed in
the first run, the target still does not exist afterwards, so the second
run attempts conversion again instead of skipping it. -/
theorem claimC5_counterexample :
    ((runMain (secondEnv envFail)).files.map fun r => r.shouldConvert) = [true] ∧
    ((runMain (secondEnv envFail)).files.map fun r => r.conv.isSome) = [true] ∧
    (runMain envFail).tgtFinal "A.pdf" = none :=
  ⟨rfl, rfl, rfl⟩

/-- C5 amended: if every conversion attempted in the first run reports
success, and every freshly written PDF is stamped strictly later than its
source, then a second back-to-back run with unchanged sources skips
conversion for every candidate and writes a manifest identical to the
first run's. -/
theorem claimC5_amended (env : RunEnv)
    (hd : env.srcDirExists = true)
    (hne : (candidatesOf env).isEmpty = false)
    (hok : ∀ r ∈ (runMain env).files, ∀ c, r.conv = some c →
      c.result = Except.ok true)
    (hclock : ∀ r ∈ (runMain env).files, ∀ c, r.conv = some c →
      c.wroteTarget = true → env.srcMtime r.name < env.convMtime r.name) :
    (∀ r ∈ (runMain (secondEnv env)).files, r.shouldConvert = false) ∧
    (runMain (secondEnv env)).manifest = (runMain env).manifest := by
  obtain ⟨rs1, t1, hf1⟩ := processFold_ok env (candidatesOf env) env.tgt0
  have hrun1 := runMain_run_fields env hd hne rs1 t1 hf1
  rw [hrun1.1] at hok hclock
  have hinv := processFold_inv env (candidatesOf env) env.tgt0 rs1 t1 hf1 hok hclock
  have ht0 : (secondEnv env).tgt0 = t1 := hrun1.2.2
  have hcur : ∀ f ∈ candidatesOf (secondEnv env),
      ∃ tm, t1 (pdfNameOf f) = some tm ∧ (secondEnv env).srcMtime f < tm :=
    fun f hfm => hinv.2.1 f hfm
  obtain ⟨rs2, hfold2, hall2, hmap2⟩ :=
    processFold_all_current (secondEnv env) (candidatesOf (secondEnv env)) t1 hcur
  have hfold2b : processFold (secondEnv env) (secondEnv env).tgt0
      (candidatesOf (secondEnv env)) = Except.ok (rs2, t1) := by
    rw [ht0]
    exact hfold2
  have hrun2 := runMain_run_fields (secondEnv env) hd hne rs2 t1 hfold2b
  constructor
  · intro r hr
    rw [hrun2.1] at hr
    exact (hall2 r hr).1
  · rw [hrun2.2.1, hrun1.2.1]
    have h1 : rs1.filter recOk = rs1 :=
      List.filter_eq_self.mpr (fun r hr => hinv.1 r hr)
    have h2 : rs2.filter recOk = rs2 :=
      List.filter_eq_self.mpr (fun r hr => (hall2 r hr).2)
    rw [h1, h2, hmap2, processFold_entries env (candidatesOf env) env.tgt0 rs1 t1 hf1]
    rfl

/-- C5 amended witness: the two-file environment where everything succeeds;
the second run writes the same manifest. -/
theorem claimC5_amended_witness :
    (runMain (secondEnv envTwo)).manifest = (runMain envTwo).manifest :=
  (claimC5_amended envTwo rfl rfl
    (attempted_ok_of_convOk envTwo (fun _ => ⟨rfl, rfl, rfl⟩))
    (clock_of_global envTwo (fun _ => show (5 : Nat) < 9 by decide))).2

end UpdateGuidePpt
